import Mathlib

/-!
Verification development for the Redox scheme IPC core
(`src/kernel/fs/scheme.rs`) and the raw-pointer vector container
(`src/kernel/common/vec.rs`).

The Rust code is shallowly embedded: machine words (`usize` on the 64-bit
target) become `Nat` with explicit `% 2 ^ 64` where overflow matters,
fallible operations return `Except KError`, the `BTreeMap`s of the shared
state become association lists sorted by key, and the provider context's
memory map (a vector of `ContextMemory` records) becomes a `List`.

External collaborators that live outside the two embedded source files
(the scheduler context's `translate`/`next_mem`, the outcome of the
cooperative wait loop, the heap allocator) are supplied as oracle inputs
to the embedded operations, mirroring exactly the points at which the
source consults them.
-/

namespace Redox

/-- Bit width of a machine word (`usize`) on the 64-bit target. -/
def wordBits : Nat := 64

/-- One past the largest machine word: `2 ^ 64`. -/
def wordMax : Nat := 2 ^ wordBits

/-- Kernel error kinds used by `scheme.rs` (`system::error`).  The numeric
errno values live outside `src/`; no claim depends on them, so errors are
embedded as an inductive of the five kinds the core itself injects, plus
`provider e` for an errno decoded out of a provider reply word. -/
inductive KError where
  | EBADF
  | EFAULT
  | EINVAL
  | ENOENT
  | ESPIPE
  | provider (e : Nat)
deriving Repr, DecidableEq

/-- The four request/reply words `(a, b, c, d)` stored in the `todo` and
`done` maps (`(usize, usize, usize, usize)` in the source). -/
structure Regs where
  a : Nat
  b : Nat
  c : Nat
  d : Nat
deriving Repr, DecidableEq

/-- Modelled from the spec: `Error::demux` (in `system::error`, outside
`src/`) decodes the first reply word as a `Result<usize>` — "non-negative
values are successes; negative values are `-errno`" (§6), reading the word
as a two's-complement `isize`. -/
def demux (w : Nat) : Except KError Nat :=
  if w < 2 ^ (wordBits - 1) then .ok w else .error (.provider (wordMax - w))

/-- Sorted-by-key insert into an association list: the embedding of
`BTreeMap::insert` (ignoring the replaced value, which the source drops). -/
def mapInsert (k : Nat) (v : Regs) : List (Nat × Regs) → List (Nat × Regs)
  | [] => [(k, v)]
  | (k2, v2) :: rest =>
    if k < k2 then (k, v) :: (k2, v2) :: rest
    else if k = k2 then (k, v) :: rest
    else (k2, v2) :: mapInsert k v rest

/-- Removal from an association list: the embedding of `BTreeMap::remove`,
returning the removed value (if any) and the remaining map. -/
def mapRemove (k : Nat) : List (Nat × Regs) → Option Regs × List (Nat × Regs)
  | [] => (none, [])
  | (k2, v2) :: rest =>
    if k = k2 then (some v2, rest)
    else
      let r := mapRemove k rest
      (r.1, (k2, v2) :: r.2)

/-- The invariant a `BTreeMap` maintains for our association-list model:
keys strictly ascending from head to tail (so the head key is the
smallest, matching `BTreeMap::keys().next()`). -/
def mapSorted (m : List (Nat × Regs)) : Prop :=
  List.Pairwise (fun p q => p.1 < q.1) m

instance (m : List (Nat × Regs)) : Decidable (mapSorted m) :=
  inferInstanceAs (Decidable (List.Pairwise _ m))

/-- The shared state of one registered scheme (`SchemeInner`): scheme
name (as its bytes), the id generator cell, and the pending (`todo`)
and completed (`done`) request maps.  The raw `context` pointer is not a
field here; the provider context's memory map is threaded separately
(see `KState`). -/
structure SchemeInner where
  name : List Nat
  next_id : Nat
  todo : List (Nat × Regs)
  done : List (Nat × Regs)
deriving Repr, DecidableEq

/-- `SchemeInner::new`: fresh shared state with `next_id` starting at 1
and empty maps. -/
def SchemeInner.new (name : List Nat) : SchemeInner :=
  { name := name, next_id := 1, todo := [], done := [] }

/-- The id-generator step inside `SchemeInner::call`:
`let mut next_id = id + 1; if next_id <= 0 { next_id = 1; }` on a `usize`
(release-mode wrapping add, and `<= 0` on an unsigned word means `= 0`). -/
def nextIdAdvance (id : Nat) : Nat :=
  let n := (id + 1) % wordMax
  if n = 0 then 1 else n

/-- Outcome of the cooperative completion-polling loop of
`SchemeInner::call`, supplied by the environment: either the provider
eventually replies with four words under our id (`reply`), or the weak
upgrade fails on some resumption because the provider dropped its last
strong reference (`death`). -/
inductive CallOutcome where
  | reply (w : Regs)
  | death
deriving Repr, DecidableEq

/-- `SchemeInner::call`: upgrade the weak reference (`alive0`; on failure
`EBADF`), read and advance `next_id`, insert `(a,b,c,d)` into `todo`
under the fresh id, then poll `done` across cooperative yields.  The
loop's interaction with the provider is the `outcome` oracle: on `reply w`
the loop finds `w` in `done`, removes it and returns `demux w.a`; on
`death` an upgrade fails between iterations and the call returns `EBADF`.
The returned `SchemeInner` is the state as of the call's own mutations
(the id advance and the `todo` insert). -/
def SchemeInner.call (alive0 : Bool) (outcome : CallOutcome) (st : SchemeInner)
    (a b c d : Nat) : Except KError Nat × SchemeInner :=
  if alive0 then
    let id := st.next_id
    let st1 : SchemeInner :=
      { st with next_id := nextIdAdvance id, todo := mapInsert id ⟨a, b, c, d⟩ st.todo }
    match outcome with
    | .reply w => (demux w.a, st1)
    | .death => (.error .EBADF, st1)
  else
    (.error .EBADF, st)

/-- A mapping record in a context's memory map (`ContextMemory` from
`arch::context`, as constructed and mutated by `scheme.rs`). -/
structure ContextMemory where
  physical_address : Nat
  virtual_address : Nat
  virtual_size : Nat
  writeable : Bool
  allocated : Bool
deriving Repr, DecidableEq

/-- Modelled from the spec: `Context::get_mem_mut(virt)` (in
`arch::context`, outside `src/`) finds the mapping record registered at
virtual base `virt`; `scheme.rs` uses it only to set that record's
`virtual_size` to 0, which is what this function does to the first
record whose `virtual_address` matches. -/
def zeroSizeAt (virt : Nat) : List ContextMemory → List ContextMemory
  | [] => []
  | m :: rest =>
    if m.virtual_address = virt then { m with virtual_size := 0 } :: rest
    else m :: zeroSizeAt virt rest

/-- Modelled from the spec: `Context::clean_mem` (in `arch::context`,
outside `src/`) is "the provider's `clean_mem` pass which removes
zero-sized records" (§4.2 step 6). -/
def cleanMem (mem : List ContextMemory) : List ContextMemory :=
  mem.filter (fun m => m.virtual_size != 0)

/-- `true` iff the memory map holds an aliased record: `virtual_size ≠ 0`
and `allocated = false` (§8 invariant 3). -/
def hasAliased (mem : List ContextMemory) : Bool :=
  mem.any (fun m => m.virtual_size != 0 && !m.allocated)

/-- The state a client operation acts on: the scheme's shared state plus
the provider context's memory map (`(*scheme.context).memory`). -/
structure KState where
  inner : SchemeInner
  providerMem : List ContextMemory
deriving Repr, DecidableEq

/-- Syscall opcode constants (`system::syscall`, outside `src/`).
Modelled from the spec: "Exact numeric values must match the host ABI and
are inherited unchanged" (§6); no claim depends on the values, only on
which constant each operation passes. -/
def SYS_OPEN : Nat := 5
/-- See `SYS_OPEN`. -/
def SYS_CLOSE : Nat := 6
/-- See `SYS_OPEN`. -/
def SYS_READ : Nat := 3
/-- See `SYS_OPEN`. -/
def SYS_WRITE : Nat := 4
/-- See `SYS_OPEN`. -/
def SYS_LSEEK : Nat := 19
/-- See `SYS_OPEN`. -/
def SYS_FPATH : Nat := 3001
/-- See `SYS_OPEN`. -/
def SYS_FSYNC : Nat := 118
/-- See `SYS_OPEN`. -/
def SYS_FTRUNCATE : Nat := 93
/-- See `SYS_OPEN`. -/
def SYS_MKDIR : Nat := 39
/-- See `SYS_OPEN`. -/
def SYS_UNLINK : Nat := 10
/-- Seek-whence constant, `SEEK_SET = 0` (§6). -/
def SEEK_SET : Nat := 0
/-- Seek-whence constant, `SEEK_CUR = 1` (§6). -/
def SEEK_CUR : Nat := 1
/-- Seek-whence constant, `SEEK_END = 2` (§6). -/
def SEEK_END : Nat := 2

/-- The collaborator answers a `SchemeResource` buffer operation consults,
in source order: the caller context's `translate`, the provider context's
`next_mem` result, the result of the weak upgrade made just before the
mapping is pushed (`aliveInstall`; under cooperative scheduling this is
also the upgrade result at the head of `SchemeInner::call`, since no
yield separates them), and the completion-loop outcome. -/
structure MarshalEnv where
  translate : Nat → Option Nat
  nextMem : Nat
  aliveInstall : Bool
  outcome : CallOutcome

/-- A client descriptor (`SchemeResource`): its weak reference is
represented by the aliveness oracles in `MarshalEnv`, leaving the
provider-assigned `file_id`. -/
structure SchemeResource where
  file_id : Nat
deriving Repr, DecidableEq

/-- Common body of `SchemeResource::path`/`read`/`write`, which differ
only in the syscall opcode (`SYS_FPATH`/`SYS_READ`/`SYS_WRITE`):
translate the buffer's start (else `EFAULT`); on a successful upgrade
push the page-aligned aliased mapping record (`writeable: true` in all
three functions) at `next_mem`; if the obtained virtual address is
nonzero, run `SchemeInner::call` and then — only if the weak reference
can still be upgraded, i.e. only on a `reply` outcome — zero the
mapping's size and run `clean_mem`; otherwise return `EBADF` with the
pushed record left in place. -/
def bufCall (env : MarshalEnv) (res : SchemeResource) (sys : Nat)
    (bufPtr bufLen : Nat) (st : KState) : Except KError Nat × KState :=
  match env.translate bufPtr with
  | none => (.error .EFAULT, st)
  | some physical_address =>
    let offset := physical_address % 4096
    let virtual_size := (bufLen + offset + 4095) / 4096 * 4096
    let virtual_address := if env.aliveInstall then env.nextMem else 0
    let mem1 :=
      if env.aliveInstall then
        st.providerMem ++
          [{ physical_address := physical_address - offset,
             virtual_address := virtual_address,
             virtual_size := virtual_size,
             writeable := true,
             allocated := false }]
      else st.providerMem
    if 0 < virtual_address then
      let pr := SchemeInner.call env.aliveInstall env.outcome st.inner
                  sys res.file_id (virtual_address + offset) bufLen
      let mem2 :=
        match env.outcome with
        | .reply _ => cleanMem (zeroSizeAt virtual_address mem1)
        | .death => mem1
      (pr.1, { inner := pr.2, providerMem := mem2 })
    else
      (.error .EBADF, { st with providerMem := mem1 })

/-- `SchemeResource::path`: marshal `buf` and submit
`(SYS_FPATH, file_id, V + offset, buf.len)`. -/
def SchemeResource.path (env : MarshalEnv) (res : SchemeResource)
    (bufPtr bufLen : Nat) (st : KState) : Except KError Nat × KState :=
  bufCall env res SYS_FPATH bufPtr bufLen st

/-- `SchemeResource::read`: marshal `buf` and submit
`(SYS_READ, file_id, V + offset, buf.len)`. -/
def SchemeResource.read (env : MarshalEnv) (res : SchemeResource)
    (bufPtr bufLen : Nat) (st : KState) : Except KError Nat × KState :=
  bufCall env res SYS_READ bufPtr bufLen st

/-- `SchemeResource::write`: marshal `buf` and submit
`(SYS_WRITE, file_id, V + offset, buf.len)`. -/
def SchemeResource.write (env : MarshalEnv) (res : SchemeResource)
    (bufPtr bufLen : Nat) (st : KState) : Except KError Nat × KState :=
  bufCall env res SYS_WRITE bufPtr bufLen st

/-- `ResourceSeek` positions, embedding the word the source casts with
`offset as usize`. -/
inductive ResourceSeek where
  | Start (o : Nat)
  | Current (o : Nat)
  | End (o : Nat)
deriving Repr, DecidableEq

/-- `SchemeResource::seek`: translate `pos` into `(whence, offset)` and
submit `(SYS_LSEEK, file_id, offset, whence)`; no marshaling. -/
def SchemeResource.seek (alive0 : Bool) (outcome : CallOutcome)
    (res : SchemeResource) (pos : ResourceSeek) (st : SchemeInner) :
    Except KError Nat × SchemeInner :=
  let p := match pos with
    | .Start o => (SEEK_SET, o)
    | .Current o => (SEEK_CUR, o)
    | .End o => (SEEK_END, o)
  SchemeInner.call alive0 outcome st SYS_LSEEK res.file_id p.2 p.1

/-- `SchemeResource::sync`: submit `(SYS_FSYNC, file_id, 0, 0)` and
discard the numeric result on success (`.and(Ok(()))`). -/
def SchemeResource.sync (alive0 : Bool) (outcome : CallOutcome)
    (res : SchemeResource) (st : SchemeInner) :
    Except KError Unit × SchemeInner :=
  let pr := SchemeInner.call alive0 outcome st SYS_FSYNC res.file_id 0 0
  (pr.1.map (fun _ => ()), pr.2)

/-- `SchemeResource::truncate`: submit `(SYS_FTRUNCATE, file_id, len, 0)`
and discard the numeric result on success. -/
def SchemeResource.truncate (alive0 : Bool) (outcome : CallOutcome)
    (res : SchemeResource) (len : Nat) (st : SchemeInner) :
    Except KError Unit × SchemeInner :=
  let pr := SchemeInner.call alive0 outcome st SYS_FTRUNCATE res.file_id len 0
  (pr.1.map (fun _ => ()), pr.2)

/-- `SchemeResource::dup`: always `Err(EBADF)`. -/
def SchemeResource.dup (_res : SchemeResource) : Except KError SchemeResource :=
  .error .EBADF

/-- The collaborator answers a VFS-level operation
(`Scheme::open`/`mkdir`/`unlink`) consults: the provider context's
`next_mem` result, the upgrade result at the install point, and the
completion-loop outcome.  These operations never consult the caller's
`translate`. -/
structure VfsEnv where
  nextMem : Nat
  aliveInstall : Bool
  outcome : CallOutcome

/-- Common body of `Scheme::open`/`mkdir`/`unlink` up to and including
the mapping teardown.  The URL string is cloned and NUL-terminated
(`url.string.clone() + "\0"`, so its length is `urlLen + 1`, where
`strPtr` is the allocator-chosen address of the clone); its own pointer
is taken directly as `physical_address` — no translation, no page
rounding — and the record is pushed with the exact string length as
`virtual_size` and `writeable: false`.  If the obtained virtual address
is nonzero, submit `(sys, V, arg2, arg3)` and tear the mapping down as
in `bufCall`; otherwise return `ENOENT`. -/
def vfsCall (env : VfsEnv) (sys : Nat) (urlLen strPtr : Nat)
    (arg2 arg3 : Nat) (st : KState) : Except KError Nat × KState :=
  let c_len := urlLen + 1
  let physical_address := strPtr
  let virtual_address := if env.aliveInstall then env.nextMem else 0
  let mem1 :=
    if env.aliveInstall then
      st.providerMem ++
        [{ physical_address := physical_address,
           virtual_address := virtual_address,
           virtual_size := c_len,
           writeable := false,
           allocated := false }]
    else st.providerMem
  if 0 < virtual_address then
    let pr := SchemeInner.call env.aliveInstall env.outcome st.inner
                sys virtual_address arg2 arg3
    let mem2 :=
      match env.outcome with
      | .reply _ => cleanMem (zeroSizeAt virtual_address mem1)
      | .death => mem1
    (pr.1, { inner := pr.2, providerMem := mem2 })
  else
    (.error .ENOENT, { st with providerMem := mem1 })

/-- `Scheme::open`: marshal the URL string as in `vfsCall`, submit
`(SYS_OPEN, V, flags, 0)`, and wrap a successful file id in a new
`SchemeResource`. -/
def Scheme.open (env : VfsEnv) (urlLen strPtr flags : Nat) (st : KState) :
    Except KError SchemeResource × KState :=
  let pr := vfsCall env SYS_OPEN urlLen strPtr flags 0 st
  (match pr.1 with
   | .ok file_id => .ok { file_id := file_id }
   | .error e => .error e,
   pr.2)

/-- `Scheme::mkdir`: marshal the URL string as in `vfsCall`, submit
`(SYS_MKDIR, V, flags, 0)`, and discard the numeric result on success. -/
def Scheme.mkdir (env : VfsEnv) (urlLen strPtr flags : Nat) (st : KState) :
    Except KError Unit × KState :=
  let pr := vfsCall env SYS_MKDIR urlLen strPtr flags 0 st
  (pr.1.map (fun _ => ()), pr.2)

/-- `Scheme::unlink`: marshal the URL string as in `vfsCall`, submit
`(SYS_UNLINK, V, 0, 0)`, and discard the numeric result on success. -/
def Scheme.unlink (env : VfsEnv) (urlLen strPtr : Nat) (st : KState) :
    Except KError Unit × KState :=
  let pr := vfsCall env SYS_UNLINK urlLen strPtr 0 0 st
  (pr.1.map (fun _ => ()), pr.2)

/-- The wire packet (`system::scheme::Packet`): five machine words
`id, a, b, c, d` (§6). -/
structure Packet where
  id : Nat
  a : Nat
  b : Nat
  c : Nat
  d : Nat
deriving Repr, DecidableEq

/-- `size_of::<Packet>()` on the 64-bit target: five 8-byte words,
packed. -/
def packetSize : Nat := 5 * 8

/-- `SchemeServerResource::read` (the provider's `recv`): the buffer must
be exactly packet-sized, else `EINVAL`.  Write the smallest `todo` key
(or 0 if the map is empty) into the packet's `id` field; if that id is
positive, remove its entry and fill the packet's four words, returning
`Ok(packetSize)`; otherwise return `Ok(0)`.  `buf` is the packet the
caller's buffer currently holds, returned with whatever fields the code
wrote. -/
def SchemeServerResource.read (bufLen : Nat) (buf : Packet)
    (st : SchemeInner) : Except KError Nat × Packet × SchemeInner :=
  if bufLen = packetSize then
    let pid := match st.todo.head? with
      | some kv => kv.1
      | none => 0
    let buf1 := { buf with id := pid }
    if 0 < pid then
      match mapRemove pid st.todo with
      | (some regs, todo1) =>
        (.ok packetSize,
         { id := pid, a := regs.a, b := regs.b, c := regs.c, d := regs.d },
         { st with todo := todo1 })
      | (none, _) => (.ok 0, buf1, st)
    else
      (.ok 0, buf1, st)
  else
    (.error .EINVAL, buf, st)

/-- `SchemeServerResource::write` (the provider's `reply`): the buffer
must be exactly packet-sized, else `EINVAL`; insert the packet's four
words into `done` under the packet's id. -/
def SchemeServerResource.write (bufLen : Nat) (buf : Packet)
    (st : SchemeInner) : Except KError Nat × SchemeInner :=
  if bufLen = packetSize then
    (.ok packetSize,
     { st with done := mapInsert buf.id ⟨buf.a, buf.b, buf.c, buf.d⟩ st.done })
  else
    (.error .EINVAL, st)

/-- The copy loop shared by the two `while` loops of
`SchemeServerResource::path`:
`while i < buf.len() && i - base < src.len() { buf[i] = src[i - base]; i += 1 }`
(`base` is `0` for the `":"` loop and `path_a.len() = 1` for the name
loop; subtraction is `usize` subtraction, never evaluated below `base`
on any reachable iteration). -/
def copyLoop (src : List Nat) (base : Nat) (buf : List Nat) (i : Nat) :
    List Nat × Nat :=
  if h : i < buf.length ∧ i - base < src.length then
    copyLoop src base (buf.set i (src.getD (i - base) 0)) (i + 1)
  else
    (buf, i)
termination_by buf.length - i
decreasing_by simp only [List.length_set]; omega

/-- `SchemeServerResource::path`: copy `":"` (byte 58) then the scheme
name's bytes into the buffer, stopping at the buffer's length; return
the final buffer and the byte count `i`. -/
def SchemeServerResource.path (name : List Nat) (buf : List Nat) :
    List Nat × Nat :=
  let p1 := copyLoop [58] 0 buf 0
  copyLoop name 1 p1.1 p1.2

/-- The raw-pointer vector (`common::vec::Vec<T>`): the heap buffer
behind `data` is embedded as an unbounded cell array `Nat → T` (the
allocator lives outside `src/`; `realloc` preserves contents, so it is
the identity on the cells). -/
structure Vec (T : Type) where
  data : Nat → T
  length : Nat

/-- `Vec::get`: `None` if `i >= length`, else the `i`-th cell. -/
def Vec.get (v : Vec T) (i : Nat) : Option T :=
  if i ≥ v.length then none else some (v.data i)

/-- `Vec::set`: `if i <= self.length { ptr::write(self.data.offset(i), value) }`
— note `<=`, and `length` is untouched (`set` takes `&self`). -/
def Vec.set (v : Vec T) (i : Nat) (value : T) : Vec T :=
  if i ≤ v.length then
    { v with data := fun j => if j = i then value else v.data j }
  else
    v

/-- `Vec::push`: increment `length`, realloc, write at `length - 1`. -/
def Vec.push (v : Vec T) (value : T) : Vec T :=
  let len := v.length + 1
  { data := fun j => if j = len - 1 then value else v.data j, length := len }

/-- `Vec::pop`: if nonempty, decrement `length`, read the cell at the new
`length`, realloc, and return it; else `None`. -/
def Vec.pop (v : Vec T) : Option T × Vec T :=
  if v.length > 0 then
    let len := v.length - 1
    (some (v.data len), { v with length := len })
  else
    (none, v)

/-! ## Concrete fixtures for witnesses and counterexamples -/

/-- A translation oracle that maps every virtual address to physical
address 8194 (page offset 2). -/
def someTranslate : Nat → Option Nat := fun _ => some 8194

/-- A translation oracle with no mappings at all. -/
def noneTranslate : Nat → Option Nat := fun _ => none

/-- A concrete client descriptor with file id 7. -/
def cres : SchemeResource := { file_id := 7 }

/-- A concrete starting state: scheme named "p", fresh shared state,
empty provider memory map. -/
def st0 : KState := { inner := SchemeInner.new [112], providerMem := [] }

/-- A marshal environment in which the provider stays alive through the
install but drops its last strong reference during the wait loop. -/
def cenvDeath : MarshalEnv :=
  { translate := someTranslate, nextMem := 70000, aliveInstall := true,
    outcome := .death }

/-- A VFS environment in which the provider dies during the wait loop. -/
def cvfsDeath : VfsEnv :=
  { nextMem := 70000, aliveInstall := true, outcome := .death }

/-! ## Theorems for the claims -/

/-- C9: `Vec::set(i, value)` never changes the vector's length; it
performs the write for every `i ≤ length` (so `i = length` writes one
element past the end without extending the length) and does nothing for
`i > length`. -/
theorem vec_set_spec {T : Type} (v : Vec T) (i : Nat) (x : T) :
    (v.set i x).length = v.length ∧
    (i ≤ v.length → (v.set i x).data i = x) ∧
    (i > v.length → v.set i x = v) := by
  refine ⟨?_, ?_, ?_⟩
  · unfold Vec.set; split <;> rfl
  · intro h; simp [Vec.set, h]
  · intro h; simp [Vec.set, Nat.not_le.mpr h]

/-- A concrete two-element vector over `Nat`. -/
def cvec : Vec Nat := { data := fun _ => 0, length := 2 }

/-- Witness for C9: setting index 2 of a length-2 vector keeps the
length 2 and writes the value one past the end. -/
theorem vec_set_spec_witness :
    (cvec.set 2 7).length = 2 ∧ (cvec.set 2 7).data 2 = 7 :=
  ⟨(vec_set_spec cvec 2 7).1, (vec_set_spec cvec 2 7).2.1 (by decide)⟩

/-- C10: `pop` undoes `push` — `push x` then `pop` returns `Some x` and
leaves the vector with its original length and elements; `pop` on an
empty vector returns `None` and leaves the length 0. -/
theorem vec_push_pop (T : Type) (v : Vec T) (x : T) :
    ((v.push x).pop).1 = some x ∧
    ((v.push x).pop).2.length = v.length ∧
    (∀ i, ((v.push x).pop).2.get i = v.get i) ∧
    (v.length = 0 → v.pop = (none, v)) := by
  refine ⟨?_, ?_, ?_, ?_⟩
  · simp [Vec.push, Vec.pop]
  · simp [Vec.push, Vec.pop]
  · intro i
    by_cases h : i ≥ v.length
    · simp [Vec.push, Vec.pop, Vec.get, h]
    · have hne : i ≠ v.length := by omega
      simp [Vec.push, Vec.pop, Vec.get, h, hne]
  · intro h; simp [Vec.pop, h]

/-- Witness for C10: on the concrete vector, push-then-pop returns the
pushed value and restores the length, and pop on the empty vector
returns `none`. -/
theorem vec_push_pop_witness :
    ((cvec.push 9).pop).1 = some 9 ∧
    ((cvec.push 9).pop).2.length = 2 ∧
    (Vec.pop { data := fun _ => (0 : Nat), length := 0 }).1 = none :=
  ⟨(vec_push_pop Nat cvec 9).1, (vec_push_pop Nat cvec 9).2.1,
   by rw [(vec_push_pop Nat { data := fun _ => (0 : Nat), length := 0 } 0).2.2.2 rfl]⟩

/-- C7: a client `read`/`write`/`path` whose buffer start does not
translate returns `EFAULT` with the shared state and the provider's
memory map completely unchanged (no pending entry, no mapping record). -/
theorem unmapped_buffer_efault (env : MarshalEnv) (res : SchemeResource)
    (bufPtr bufLen : Nat) (st : KState)
    (h : env.translate bufPtr = none) :
    SchemeResource.read env res bufPtr bufLen st = (.error .EFAULT, st) ∧
    SchemeResource.write env res bufPtr bufLen st = (.error .EFAULT, st) ∧
    SchemeResource.path env res bufPtr bufLen st = (.error .EFAULT, st) := by
  refine ⟨?_, ?_, ?_⟩ <;>
    simp [SchemeResource.read, SchemeResource.write, SchemeResource.path,
          bufCall, h]

/-- A marshal environment whose translation oracle has no mappings. -/
def cenvNone : MarshalEnv :=
  { translate := noneTranslate, nextMem := 70000, aliveInstall := true,
    outcome := .death }

/-- Witness for C7: the concrete unmapped read fails with `EFAULT` and
leaves the state untouched. -/
theorem unmapped_buffer_efault_witness :
    SchemeResource.read cenvNone cres 100 16 st0 = (.error .EFAULT, st0) :=
  (unmapped_buffer_efault cenvNone cres 100 16 st0 rfl).1

/-- C6: the request-id generator starts at 1; each aliveness-passing call
files the request under the current `next_id` and advances it; the
advance wraps to 1 on overflow and otherwise increments by exactly 1, and
it never produces 0 from a nonzero value — so ids are strictly monotonic
modulo the wrap-to-1 and never 0. -/
theorem next_id_generator :
    (∀ name, (SchemeInner.new name).next_id = 1) ∧
    (∀ out st a b c d,
       (SchemeInner.call true out st a b c d).2.next_id
         = nextIdAdvance st.next_id) ∧
    (∀ out st a b c d,
       (SchemeInner.call true out st a b c d).2.todo
         = mapInsert st.next_id ⟨a, b, c, d⟩ st.todo) ∧
    (∀ id, 0 < id → 0 < nextIdAdvance id) ∧
    (nextIdAdvance (wordMax - 1) = 1) ∧
    (∀ id, id + 1 < wordMax → nextIdAdvance id = id + 1) := by
  refine ⟨fun name => rfl, ?_, ?_, ?_, ?_, ?_⟩
  · intro out st a b c d
    cases out <;> rfl
  · intro out st a b c d
    cases out <;> rfl
  · intro id _
    by_cases hz : (id + 1) % wordMax = 0
    · simp [nextIdAdvance, hz]
    · simp [nextIdAdvance, hz]
      omega
  · have h : (wordMax - 1 + 1) % wordMax = 0 := by
      unfold wordMax wordBits
      norm_num
    simp [nextIdAdvance, h]
  · intro id h
    simp [nextIdAdvance, Nat.mod_eq_of_lt h]

/-- Witness for C6: the generator never yields 0 starting from 3, and the
advance off the wrap boundary is an increment. -/
theorem next_id_generator_witness :
    0 < nextIdAdvance 3 ∧ nextIdAdvance 3 = 4 :=
  ⟨next_id_generator.2.2.2.1 3 (by decide),
   next_id_generator.2.2.2.2.2 3 (by norm_num [wordMax, wordBits])⟩

/-- C4: `SchemeInner::call` returns `EBADF` both when the weak reference
fails to upgrade before the request is inserted and when it fails on a
resumption of the completion loop; consequently, once the provider has
dropped its last strong reference, every client operation fails with
`EBADF` (`read`/`write`/`path` after a successful buffer translation,
`seek`/`sync`/`truncate` directly through the call, and `dup`
unconditionally). -/
theorem dead_scheme_ebadf :
    (∀ out st a b c d,
       (SchemeInner.call false out st a b c d).1 = .error .EBADF) ∧
    (∀ st a b c d,
       (SchemeInner.call true .death st a b c d).1 = .error .EBADF) ∧
    (∀ env : MarshalEnv, env.aliveInstall = false →
      ∀ res bufPtr bufLen st pa, env.translate bufPtr = some pa →
        (SchemeResource.read env res bufPtr bufLen st).1 = .error .EBADF ∧
        (SchemeResource.write env res bufPtr bufLen st).1 = .error .EBADF ∧
        (SchemeResource.path env res bufPtr bufLen st).1 = .error .EBADF) ∧
    (∀ out res pos st,
       (SchemeResource.seek false out res pos st).1 = .error .EBADF) ∧
    (∀ out res st,
       (SchemeResource.sync false out res st).1 = .error .EBADF) ∧
    (∀ out res len st,
       (SchemeResource.truncate false out res len st).1 = .error .EBADF) ∧
    (∀ res, SchemeResource.dup res = .error .EBADF) := by
  refine ⟨fun out st a b c d => rfl, fun st a b c d => rfl, ?_, ?_, ?_, ?_,
    fun res => rfl⟩
  · intro env hA res bufPtr bufLen st pa hT
    refine ⟨?_, ?_, ?_⟩ <;>
      simp [SchemeResource.read, SchemeResource.write, SchemeResource.path,
            bufCall, hT, hA]
  · intro out res pos st
    simp [SchemeResource.seek, SchemeInner.call]
  · intro out res st
    simp [SchemeResource.sync, SchemeInner.call, Except.map]
  · intro out res len st
    simp [SchemeResource.truncate, SchemeInner.call, Except.map]

/-- A marshal environment whose weak reference is already dead at the
install point. -/
def cenvDead : MarshalEnv :=
  { translate := someTranslate, nextMem := 70000, aliveInstall := false,
    outcome := .death }

/-- Witness for C4: on the concrete dead scheme, a read (with a
translating buffer), a sync, and a mid-call-death submit all fail with
`EBADF`. -/
theorem dead_scheme_ebadf_witness :
    (SchemeResource.read cenvDead cres 100 16 st0).1 = .error .EBADF ∧
    (SchemeResource.sync false .death cres st0.inner).1 = .error .EBADF ∧
    (SchemeInner.call true .death st0.inner 1 2 3 4).1 = .error .EBADF :=
  ⟨(dead_scheme_ebadf.2.2.1 cenvDead rfl cres 100 16 st0 8194 rfl).1,
   dead_scheme_ebadf.2.2.2.2.1 .death cres st0.inner,
   dead_scheme_ebadf.2.1 st0.inner 1 2 3 4⟩

/-- Counterexample for C1 as stated: the claim requires the mapping
record pushed by the client `write` operation to have `writeable =
false`, but on a concrete write (buffer at virtual 100 translating to
physical 8194, length 16, provider window 70000, provider dying mid-call
so the pushed record is still visible on return) the record's
`writeable` flag is `true`, not `false`. -/
theorem write_writeable_cex :
    ((SchemeResource.write cenvDeath cres 100 16 st0).2.providerMem.map
      ContextMemory.writeable) = [true] ∧
    ¬ ((SchemeResource.write cenvDeath cres 100 16 st0).2.providerMem.map
      ContextMemory.writeable) = [false] := by
  constructor
  · rfl
  · decide

/-- C1 as amended: the mapping record pushed by each of the three client
buffer operations (`read`, `write`, and `path`) has `writeable = true`,
and the record pushed for the path-string argument of each VFS operation
(`open`, `mkdir`, `unlink`) has `writeable = false`.  (The source sets
`writeable: true` in `write` as well, where the provider only reads the
buffer.)  The record is observed via the mid-call-death run, on which it
is still the last entry of the provider's memory map when the operation
returns; the push itself is outcome-independent. -/
theorem mapping_writeable_flags (env : MarshalEnv) (res : SchemeResource)
    (bufPtr bufLen : Nat) (st : KState) (pa : Nat)
    (hT : env.translate bufPtr = some pa) (hA : env.aliveInstall = true)
    (hO : env.outcome = .death)
    (venv : VfsEnv) (urlLen strPtr flags : Nat) (st2 : KState)
    (hA2 : venv.aliveInstall = true) (hO2 : venv.outcome = .death) :
    (((SchemeResource.read env res bufPtr bufLen st).2.providerMem.getLast?).map
       ContextMemory.writeable = some true) ∧
    (((SchemeResource.write env res bufPtr bufLen st).2.providerMem.getLast?).map
       ContextMemory.writeable = some true) ∧
    (((SchemeResource.path env res bufPtr bufLen st).2.providerMem.getLast?).map
       ContextMemory.writeable = some true) ∧
    (((Scheme.open venv urlLen strPtr flags st2).2.providerMem.getLast?).map
       ContextMemory.writeable = some false) ∧
    (((Scheme.mkdir venv urlLen strPtr flags st2).2.providerMem.getLast?).map
       ContextMemory.writeable = some false) ∧
    (((Scheme.unlink venv urlLen strPtr st2).2.providerMem.getLast?).map
       ContextMemory.writeable = some false) := by
  refine ⟨?_, ?_, ?_, ?_, ?_, ?_⟩ <;>
    simp [SchemeResource.read, SchemeResource.write, SchemeResource.path,
          Scheme.open, Scheme.mkdir, Scheme.unlink, bufCall, vfsCall,
          hT, hA, hO, hA2, hO2] <;>
    split <;>
    simp [List.getLast?_append]

/-- Witness for C1 (amended): on the concrete mid-call-death runs, the
read record is writeable and the open record is not. -/
theorem mapping_writeable_flags_witness :
    (((SchemeResource.read cenvDeath cres 100 16 st0).2.providerMem.getLast?).map
       ContextMemory.writeable = some true) ∧
    (((Scheme.open cvfsDeath 2 10001 0 st0).2.providerMem.getLast?).map
       ContextMemory.writeable = some false) :=
  ⟨(mapping_writeable_flags cenvDeath cres 100 16 st0 8194 rfl rfl rfl
      cvfsDeath 2 10001 0 st0 rfl rfl).1,
   (mapping_writeable_flags cenvDeath cres 100 16 st0 8194 rfl rfl rfl
      cvfsDeath 2 10001 0 st0 rfl rfl).2.2.2.1⟩

/-- Counterexample for C2 as stated: the claim requires the URL-string
mapping record pushed by `open` to hold a physical address rounded down
to a page boundary and a page-aligned size covering the string; on a
concrete `open` of a 2-byte URL whose NUL-terminated clone sits at
address 10001 (provider window 70000, provider dying mid-call so the
record is still visible), the record stores physical address 10001
as-is and size 3 — neither is a multiple of 4096, and no translation
failure path exists (the caller's `translate` is never consulted). -/
theorem open_marshal_cex :
    (Scheme.open cvfsDeath 2 10001 0 st0).2.providerMem =
      [{ physical_address := 10001, virtual_address := 70000,
         virtual_size := 3, writeable := false, allocated := false }] ∧
    ¬ (10001 % 4096 = 0) ∧ ¬ (3 % 4096 = 0) := by
  refine ⟨rfl, by decide, by decide⟩

/-- C2 as amended: `open`, `mkdir`, and `unlink` marshal the
NUL-terminated URL string by taking the kernel string clone's own
address directly as the mapping's physical address — the caller's
context is never asked to translate it and there is no bad-address
failure path — with the mapping's size equal to the exact string length
(URL length + 1 for the NUL), not a page-aligned span, the provider
window as its virtual base, `writeable = false`, and `allocated =
false`.  (Observed via the mid-call-death run, on which the pushed
record survives to the operation's return.) -/
theorem vfs_marshal_record (venv : VfsEnv) (urlLen strPtr flags : Nat)
    (st : KState) (hA : venv.aliveInstall = true)
    (hO : venv.outcome = .death) :
    (Scheme.open venv urlLen strPtr flags st).2.providerMem =
      st.providerMem ++
        [{ physical_address := strPtr, virtual_address := venv.nextMem,
           virtual_size := urlLen + 1, writeable := false,
           allocated := false }] ∧
    (Scheme.mkdir venv urlLen strPtr flags st).2.providerMem =
      st.providerMem ++
        [{ physical_address := strPtr, virtual_address := venv.nextMem,
           virtual_size := urlLen + 1, writeable := false,
           allocated := false }] ∧
    (Scheme.unlink venv urlLen strPtr st).2.providerMem =
      st.providerMem ++
        [{ physical_address := strPtr, virtual_address := venv.nextMem,
           virtual_size := urlLen + 1, writeable := false,
           allocated := false }] := by
  refine ⟨?_, ?_, ?_⟩ <;>
    simp [Scheme.open, Scheme.mkdir, Scheme.unlink, vfsCall, hA, hO] <;>
    split <;> simp

/-- Witness for C2 (amended): the concrete `open` run pushes exactly the
raw-address, exact-length, read-only record. -/
theorem vfs_marshal_record_witness :
    (Scheme.open cvfsDeath 2 10001 0 st0).2.providerMem =
      [{ physical_address := 10001, virtual_address := 70000,
         virtual_size := 3, writeable := false, allocated := false }] :=
  (vfs_marshal_record cvfsDeath 2 10001 0 st0 rfl rfl).1

/-- Helper: `recv` on a state whose pending map starts with a positive
key removes that head entry and fills the packet from it. -/
theorem recv_cons (buf : Packet) (st : SchemeInner) (k : Nat) (regs : Regs)
    (rest : List (Nat × Regs)) (h : st.todo = (k, regs) :: rest)
    (hk : 0 < k) :
    SchemeServerResource.read packetSize buf st
      = (.ok packetSize, ⟨k, regs.a, regs.b, regs.c, regs.d⟩,
         { st with todo := rest }) := by
  simp [SchemeServerResource.read, h, hk, mapRemove]

/-- C5: the provider's `recv` with a buffer of exactly `Packet` size
removes the entry with the smallest id from a non-empty pending map and
fills the packet with that id and its four words — so two successive
`recv` calls return ascending ids — writes `id = 0` when the map is
empty, and fails with `EINVAL` for any other buffer size.  (Pending maps
reachable through `submit` are sorted with positive keys, which is the
`mapSorted`/`0 < k` hypothesis.) -/
theorem recv_spec :
    (∀ bufLen buf st, bufLen ≠ packetSize →
       SchemeServerResource.read bufLen buf st = (.error .EINVAL, buf, st)) ∧
    (∀ buf st, st.todo = [] →
       SchemeServerResource.read packetSize buf st
         = (.ok 0, { buf with id := 0 }, st)) ∧
    (∀ buf st k regs rest, st.todo = (k, regs) :: rest → 0 < k →
       (SchemeServerResource.read packetSize buf st
          = (.ok packetSize, ⟨k, regs.a, regs.b, regs.c, regs.d⟩,
             { st with todo := rest }) ∧
        (mapSorted st.todo → ∀ kv ∈ st.todo, k ≤ kv.1))) ∧
    (∀ buf buf2 st k1 r1 k2 r2 rest,
       st.todo = (k1, r1) :: (k2, r2) :: rest → mapSorted st.todo →
       0 < k1 →
       k1 < k2 ∧
       (SchemeServerResource.read packetSize buf st).2.1.id = k1 ∧
       (SchemeServerResource.read packetSize buf2
          (SchemeServerResource.read packetSize buf st).2.2).2.1.id = k2) := by
  refine ⟨?_, ?_, ?_, ?_⟩
  · intro bufLen buf st h
    simp [SchemeServerResource.read, h]
  · intro buf st h
    simp [SchemeServerResource.read, h]
  · intro buf st k regs rest h hk
    refine ⟨recv_cons buf st k regs rest h hk, ?_⟩
    intro hs kv hkv
    rw [h] at hs hkv
    rcases List.mem_cons.mp hkv with heq | hmem
    · rw [heq]
    · exact Nat.le_of_lt ((List.pairwise_cons.mp hs).1 kv hmem)
  · intro buf buf2 st k1 r1 k2 r2 rest h hs hk1
    have hlt : k1 < k2 := by
      rw [h] at hs
      exact (List.pairwise_cons.mp hs).1 (k2, r2) (List.mem_cons_self _ _)
    have h1 := recv_cons buf st k1 r1 ((k2, r2) :: rest) h hk1
    refine ⟨hlt, by rw [h1], ?_⟩
    rw [h1]
    have h2 := recv_cons buf2 { st with todo := (k2, r2) :: rest } k2 r2 rest
      rfl (Nat.lt_trans hk1 hlt)
    rw [h2]

/-- A packet whose fields are all zero, for witness buffers. -/
def packet0 : Packet := { id := 0, a := 0, b := 0, c := 0, d := 0 }

/-- A concrete shared state with two pending requests, ids 17 and 18. -/
def stTwoPending : SchemeInner :=
  { name := [112], next_id := 19,
    todo := [(17, ⟨3, 7, 70002, 16⟩), (18, ⟨4, 7, 70002, 16⟩)], done := [] }

/-- Witness for C5: on the concrete two-entry pending map, the first
`recv` returns id 17 and the second returns id 18, and a wrong-sized
buffer fails with `EINVAL`. -/
theorem recv_spec_witness :
    (SchemeServerResource.read packetSize packet0 stTwoPending).2.1.id = 17 ∧
    (SchemeServerResource.read packetSize packet0
       (SchemeServerResource.read packetSize packet0 stTwoPending).2.2).2.1.id
      = 18 ∧
    SchemeServerResource.read 39 packet0 stTwoPending
      = (.error .EINVAL, packet0, stTwoPending) :=
  ⟨(recv_spec.2.2.2 packet0 packet0 stTwoPending 17 ⟨3, 7, 70002, 16⟩ 18
      ⟨4, 7, 70002, 16⟩ [] rfl (by decide) (by decide)).2.1,
   (recv_spec.2.2.2 packet0 packet0 stTwoPending 17 ⟨3, 7, 70002, 16⟩ 18
      ⟨4, 7, 70002, 16⟩ [] rfl (by decide) (by decide)).2.2,
   recv_spec.1 39 packet0 stTwoPending (by decide)⟩

/-- Helper: zeroing the record registered at `va` in a map whose other
records all sit at different virtual bases rewrites only the appended
record. -/
theorem zeroSizeAt_append (va : Nat) (r : ContextMemory)
    (L : List ContextMemory) (hF : ∀ m ∈ L, m.virtual_address ≠ va)
    (hr : r.virtual_address = va) :
    zeroSizeAt va (L ++ [r]) = L ++ [{ r with virtual_size := 0 }] := by
  induction L with
  | nil => simp [zeroSizeAt, hr]
  | cons m rest ih =>
    have hm : m.virtual_address ≠ va := hF m (List.mem_cons_self m rest)
    simp only [List.cons_append, zeroSizeAt, hm, if_false, List.cons.injEq,
      true_and]
    exact ih (fun x hx => hF x (List.mem_cons_of_mem m hx))

/-- Helper: the `clean_mem` pass never creates an aliased record. -/
theorem hasAliased_cleanMem (L : List ContextMemory)
    (h : hasAliased L = false) : hasAliased (cleanMem L) = false := by
  simp only [hasAliased, cleanMem, List.any_eq_false] at h ⊢
  intro m hm
  exact h m (List.mem_of_mem_filter hm)

/-- Helper: `clean_mem` drops an appended zero-sized record. -/
theorem cleanMem_append_zero (L : List ContextMemory) (r : ContextMemory)
    (hr : r.virtual_size = 0) : cleanMem (L ++ [r]) = cleanMem L := by
  simp [cleanMem, List.filter_append, hr]

/-- Helper: on the straight-line exit path of `bufCall` — buffer
translates, the provider stays alive through the call (`reply` outcome,
so the post-call upgrade succeeds too), and `next_mem` returned a
nonzero window fresh for the map — the teardown removes the aliased
record it installed, so a map with no aliased records ends with none. -/
theorem bufCall_no_aliased (env : MarshalEnv) (res : SchemeResource)
    (sys bufPtr bufLen : Nat) (st : KState) (pa : Nat) (w : Regs)
    (hT : env.translate bufPtr = some pa) (hA : env.aliveInstall = true)
    (hO : env.outcome = .reply w) (hV : 0 < env.nextMem)
    (hF : ∀ m ∈ st.providerMem, m.virtual_address ≠ env.nextMem)
    (hN : hasAliased st.providerMem = false) :
    hasAliased (bufCall env res sys bufPtr bufLen st).2.providerMem
      = false := by
  unfold bufCall
  rw [hT]
  simp only [hA, if_true, hO, hV]
  rw [zeroSizeAt_append env.nextMem _ st.providerMem hF rfl,
    cleanMem_append_zero _ _ rfl]
  exact hasAliased_cleanMem st.providerMem hN

/-- Counterexample for C3 as stated: the claim requires that after a
buffer-taking client operation returns — success or failure — the
provider's memory map holds no aliased record; but on a concrete `read`
(buffer translating to physical 8194, length 16, window 70000) during
which the provider drops its last strong reference, the call returns
`EBADF` and the aliased record installed before the call is left in the
map: the post-call teardown is guarded by the weak upgrade, which fails,
so neither the size-zeroing nor `clean_mem` runs on this exit path. -/
theorem aliased_record_leak_cex :
    (SchemeResource.read cenvDeath cres 100 16 st0).1 = .error .EBADF ∧
    hasAliased (SchemeResource.read cenvDeath cres 100 16 st0).2.providerMem
      = true := by
  exact ⟨rfl, rfl⟩

/-- C3 as amended: after a buffer-taking client operation (`read`,
`write`, or `path`) returns, the provider's memory map holds no aliased
record with size ≠ 0 and allocated = false, *provided the provider is
still alive when `submit` returns* (a `reply` outcome — the teardown is
guarded by the weak upgrade), the window returned by `next_mem` is
nonzero and not the virtual base of any existing record, and the map
held no aliased record before the call; the result of the submission
itself (success or provider-reported error) is irrelevant.  When the
provider dies mid-call the teardown is skipped and the record leaks
(see the counterexample). -/
theorem no_aliased_after_bufop (env : MarshalEnv) (res : SchemeResource)
    (bufPtr bufLen : Nat) (st : KState) (pa : Nat) (w : Regs)
    (hT : env.translate bufPtr = some pa) (hA : env.aliveInstall = true)
    (hO : env.outcome = .reply w) (hV : 0 < env.nextMem)
    (hF : ∀ m ∈ st.providerMem, m.virtual_address ≠ env.nextMem)
    (hN : hasAliased st.providerMem = false) :
    hasAliased (SchemeResource.read env res bufPtr bufLen st).2.providerMem
      = false ∧
    hasAliased (SchemeResource.write env res bufPtr bufLen st).2.providerMem
      = false ∧
    hasAliased (SchemeResource.path env res bufPtr bufLen st).2.providerMem
      = false :=
  ⟨bufCall_no_aliased env res SYS_READ bufPtr bufLen st pa w hT hA hO hV hF hN,
   bufCall_no_aliased env res SYS_WRITE bufPtr bufLen st pa w hT hA hO hV hF hN,
   bufCall_no_aliased env res SYS_FPATH bufPtr bufLen st pa w hT hA hO hV hF hN⟩

/-- A marshal environment in which the provider stays alive and replies
with the success word 5. -/
def cenvReply : MarshalEnv :=
  { translate := someTranslate, nextMem := 70000, aliveInstall := true,
    outcome := .reply ⟨5, 0, 0, 0⟩ }

/-- Witness for C3 (amended): the concrete provider-serviced read leaves
no aliased record in the provider's memory map. -/
theorem no_aliased_after_bufop_witness :
    hasAliased (SchemeResource.read cenvReply cres 100 16 st0).2.providerMem
      = false :=
  (no_aliased_after_bufop cenvReply cres 100 16 st0 8194 ⟨5, 0, 0, 0⟩
    rfl rfl rfl (by decide) (by intro m hm; simp [st0] at hm) rfl).1

/-- Helper: `copyLoop` never changes the buffer's length. -/
theorem copyLoop_length (src : List Nat) (base : Nat) (buf : List Nat)
    (i : Nat) : (copyLoop src base buf i).1.length = buf.length := by
  induction buf, i using copyLoop.induct src base with
  | case1 buf i h ih => rw [copyLoop, dif_pos h]; rw [ih, List.length_set]
  | case2 buf i h => rw [copyLoop, dif_neg h]

/-- Helper: `copyLoop` stops at the end of the buffer or the end of the
source window `[base, base + src.length)`, whichever comes first. -/
theorem copyLoop_count (src : List Nat) (base : Nat) (buf : List Nat)
    (i : Nat) (hb : base ≤ i) :
    (copyLoop src base buf i).2
      = max i (min buf.length (base + src.length)) := by
  induction buf, i using copyLoop.induct src base with
  | case1 buf i h ih =>
    rw [copyLoop, dif_pos h, ih (by omega), List.length_set]
    omega
  | case2 buf i h =>
    rw [copyLoop, dif_neg h]
    omega

/-- Helper: `copyLoop` writes `src[j - base]` at every position `j` from
`i` up to its stopping point and leaves every other cell unchanged. -/
theorem copyLoop_content (src : List Nat) (base : Nat) (buf : List Nat)
    (i : Nat) (hb : base ≤ i) (j : Nat) :
    ((copyLoop src base buf i).1)[j]? =
      if i ≤ j ∧ j < min buf.length (base + src.length)
      then some (src.getD (j - base) 0)
      else buf[j]? := by
  induction buf, i using copyLoop.induct src base with
  | case1 buf i h ih =>
    rw [copyLoop, dif_pos h, ih (by omega), List.length_set]
    by_cases hj : j = i
    · subst hj
      rw [if_neg (by omega), if_pos (by omega),
        List.getElem?_set_eq_of_lt _ h.1]
    · rw [List.getElem?_set_ne (fun hh => hj hh.symm)]
      by_cases hc : i ≤ j ∧ j < min buf.length (base + src.length)
      · rw [if_pos (by omega), if_pos hc]
      · rw [if_neg (by omega), if_neg hc]
  | case2 buf i h =>
    rw [copyLoop, dif_neg h, if_neg (by omega)]

/-- C8: the provider handle's `path` writes the byte `:` (58) followed
by the scheme name into the buffer, truncated at the buffer's length,
leaves the rest of the buffer unchanged, and returns
`min (buf.length) (name.length + 1)` — the number of bytes written. -/
theorem provider_path_spec (name buf : List Nat) :
    (SchemeServerResource.path name buf).2
      = min buf.length (name.length + 1) ∧
    (SchemeServerResource.path name buf).1.length = buf.length ∧
    ∀ j, ((SchemeServerResource.path name buf).1)[j]? =
      if j < min buf.length (name.length + 1)
      then some ((58 :: name).getD j 0)
      else buf[j]? := by
  by_cases hpos : buf.length = 0
  · have hb : buf = [] := List.length_eq_zero.mp hpos
    subst hb
    have h1 : copyLoop [58] 0 ([] : List Nat) 0 = ([], 0) := by
      rw [copyLoop]; simp
    have h2 : copyLoop name 1 ([] : List Nat) 0 = ([], 0) := by
      rw [copyLoop]; simp
    refine ⟨?_, ?_, ?_⟩ <;> simp [SchemeServerResource.path, h1, h2]
  · have hge : 1 ≤ buf.length := by omega
    have hc1 := copyLoop_count [58] 0 buf 0 (Nat.le_refl 0)
    have hl1 := copyLoop_length [58] 0 buf 0
    have hcont1 := copyLoop_content [58] 0 buf 0 (Nat.le_refl 0)
    simp only [List.length_cons, List.length_nil, Nat.zero_add,
      Nat.max_eq_right (Nat.zero_le _)] at hc1
    simp only [List.length_cons, List.length_nil, Nat.zero_add,
      Nat.sub_zero] at hcont1
    have hmin1 : min buf.length 1 = 1 := by omega
    rw [hmin1] at hc1
    simp only [hmin1] at hcont1
    have hc2 := copyLoop_count name 1 (copyLoop [58] 0 buf 0).1 1
      (Nat.le_refl 1)
    have hl2 := copyLoop_length name 1 (copyLoop [58] 0 buf 0).1
    have hcont2 := copyLoop_content name 1 (copyLoop [58] 0 buf 0).1 1
      (Nat.le_refl 1)
    rw [hl1] at hc2 hl2 hcont2
    refine ⟨?_, ?_, ?_⟩
    · show (copyLoop name 1 (copyLoop [58] 0 buf 0).1
        (copyLoop [58] 0 buf 0).2).2 = _
      rw [hc1, hc2]
      omega
    · show (copyLoop name 1 (copyLoop [58] 0 buf 0).1
        (copyLoop [58] 0 buf 0).2).1.length = _
      rw [hc1, hl2]
    · intro j
      show (copyLoop name 1 (copyLoop [58] 0 buf 0).1
        (copyLoop [58] 0 buf 0).2).1[j]? = _
      rw [hc1, hcont2 j]
      by_cases hj : j = 0
      · subst hj
        rw [if_neg (by omega), hcont1 0, if_pos (by omega),
          if_pos (by omega)]
        rfl
      · obtain ⟨j', rfl⟩ : ∃ j', j = j' + 1 := ⟨j - 1, by omega⟩
        by_cases hc : j' + 1 < min buf.length (1 + name.length)
        · rw [if_pos (by omega), if_pos (by omega)]
          simp [List.getD_cons_succ]
        · rw [if_neg (by omega), hcont1 (j' + 1), if_neg (by omega),
            if_neg (by omega)]

end Redox
